import Mathlib

/-!
Shallow embedding of the core of the `zen` terminal text editor
(`src/editor.rs`).  Machine integers (`usize`, `u8`) are modelled as `Nat`;
Rust's saturating operations are modelled explicitly (`satAdd`, and `Nat`
truncated subtraction for `saturating_sub`).  Strings are modelled as
sequences of Unicode scalar values, matching the spec's data model for line
content.  The parts of the repository that `editor.rs` uses but whose source
files are not in the snapshot (`Document`, `Row`, `EditorMode`,
`commands::cursor`, `commands::view`) are modelled from the spec and marked
as such; the substring search `Document::find` is kept as an explicit
function parameter (`FindFn`) so that theorems about `Editor::search` hold
for every search implementation.
-/

/-- Rust `usize::MAX` for a 64-bit target (2 ^ 64 - 1). -/
def USIZE_MAX : Nat := 18446744073709551615

/-- Rust `usize::saturating_add` on the `Nat` model of `usize`.
`usize::saturating_sub` coincides with `Nat` truncated subtraction. -/
def satAdd (a b : Nat) : Nat := if a + b ≤ USIZE_MAX then a + b else USIZE_MAX

/-- The `Position` struct of `editor.rs` (lines 22-26): buffer coordinates,
`x` is the column, `y` the row. -/
structure Position where
  x : Nat
  y : Nat
deriving DecidableEq

/-- The subset of `termion::event::Key` variants the editor dispatches on,
plus representative other variants (`Alt`, `Null`) feeding the `_` arms. -/
inductive Key where
  | Char : Char → Key
  | Ctrl : Char → Key
  | Alt : Char → Key
  | Backspace : Key
  | Delete : Key
  | Up : Key
  | Down : Key
  | Left : Key
  | Right : Key
  | PageUp : Key
  | PageDown : Key
  | Home : Key
  | End : Key
  | Esc : Key
  | Null : Key
deriving DecidableEq

/-- Modelled from the spec: `EditorMode` (§3 "Editing Mode", §4.4) — its
declaring file is not in the snapshot; `editor.rs` uses exactly the variants
Normal, Insert, Command. -/
inductive EditorMode where
  | Normal : EditorMode
  | Insert : EditorMode
  | Command : EditorMode
deriving DecidableEq

/-- The `SearchDirection` enum of `editor.rs` (lines 33-37). -/
inductive SearchDirection where
  | Forward : SearchDirection
  | Backward : SearchDirection
deriving DecidableEq

/-- The `commands::Command` variants dispatched by `Editor::execute`
(editor.rs lines 155-176); the declaring file is not in the snapshot, so the
variant list is taken from the `execute` match arms. -/
inductive Command where
  | CursorMoveUp : Command
  | CursorMoveDown : Command
  | CursorMoveLeft : Command
  | CursorMoveRight : Command
  | CursorMoveStart : Command
  | CursorMoveEnd : Command
  | DocumentInsert : Char → Command
  | DocumentSave : Command
  | DocumentSearch : Command
  | DocumentPageUp : Command
  | DocumentPageDown : Command
  | EditorSwitchMode : EditorMode → Command
deriving DecidableEq

/-- Modelled from the spec: the `Document` data model (§3) — its source file
is not in the snapshot.  A row is its raw character content (the rendered
cache and highlight spans are derived data the claims do not touch);
`dirty` and the optional backing `file_name` are as in §3 and the
`editor.rs` uses of `Document`. -/
structure Document where
  rows : List String
  dirty : Bool
  file_name : Option String
deriving DecidableEq

/-- Document length in lines (`Document::len`). -/
def Document.len (doc : Document) : Nat := doc.rows.length

/-- Length in characters of row `y`, 0 when there is no such row. -/
def Document.rowLen (doc : Document) (y : Nat) : Nat := ((doc.rows.get? y).getD "").length

/-- Modelled from the spec: `Row::insert` (§4.1) — source file not in the
snapshot.  Inserts one character at the given column, shifting the rest
right; columns past the end are out of bounds (unreachable per §7) and are
modelled as a no-op. -/
def rowInsert (r : String) (x : Nat) (c : Char) : String :=
  if x ≤ r.length then (r.toList.take x ++ c :: r.toList.drop x).asString else r

/-- Modelled from the spec: `Row::delete` (§4.1) — source file not in the
snapshot.  Removes the character at the column if present; no-op if the
column is at or past the end. -/
def rowDelete (r : String) (x : Nat) : String :=
  if x < r.length then (r.toList.take x ++ r.toList.drop (x + 1)).asString else r

/-- Modelled from the spec: the newline case of `Document::insert` (§4.2) —
source file not in the snapshot.  Splits the line at the position into two
lines, inserting the tail as a new line immediately after; if the cursor is
past the last line a new empty line is appended first. -/
def Document.insertNewline (doc : Document) (p : Position) : Document :=
  if p.y < doc.rows.length then
    let r := (doc.rows.get? p.y).getD ""
    { doc with
      rows := doc.rows.take p.y ++ (r.toList.take p.x).asString ::
        (r.toList.drop p.x).asString :: doc.rows.drop (p.y + 1),
      dirty := true }
  else { doc with rows := doc.rows ++ [""], dirty := true }

/-- Modelled from the spec: `Document::insert` (§4.2) — source file not in
the snapshot.  Newline splits the line; otherwise the target row's insert is
used; a cursor one past the last line first gets a fresh empty line; sets
`dirty`. -/
def Document.insert (doc : Document) (p : Position) (c : Char) : Document :=
  if c = '\n' then doc.insertNewline p
  else
    let doc' := if p.y = doc.rows.length then { doc with rows := doc.rows ++ [""] } else doc
    { doc' with
      rows := doc'.rows.set p.y (rowInsert ((doc'.rows.get? p.y).getD "") p.x c),
      dirty := true }

/-- Modelled from the spec: `Document::delete` (§4.2) — source file not in
the snapshot.  At end of line with a following line, the following line is
merged in (line-join); otherwise the row's delete; no-op at end of document;
sets `dirty`. -/
def Document.delete (doc : Document) (p : Position) : Document :=
  if p.y < doc.rows.length then
    let r := (doc.rows.get? p.y).getD ""
    if p.x = r.length ∧ p.y + 1 < doc.rows.length then
      { doc with
        rows := (doc.rows.set p.y (r ++ (doc.rows.get? (p.y + 1)).getD "")).eraseIdx (p.y + 1),
        dirty := true }
    else { doc with rows := doc.rows.set p.y (rowDelete r p.x), dirty := true }
  else doc

/-- The `QUIT_TIMES` constant of `editor.rs` (line 20). -/
def QUIT_TIMES : Nat := 3

/-- The `Editor` struct of `editor.rs` (lines 39-49).  The terminal is
reduced to its reported size; the status message is reduced to its text
(its timestamp only drives the 5-second display expiry, which no claim
touches). -/
structure Editor where
  should_quit : Bool
  termWidth : Nat
  termHeight : Nat
  cursor_position : Position
  offset : Position
  document : Document
  status_text : String
  quit_times : Nat
  highlighted_word : Option String
  mode : EditorMode
deriving DecidableEq

/-- One axis of `Editor::scroll` (editor.rs lines 184-193): `o` is the
current offset component, `c` the cursor component, `size` the terminal
extent on that axis.  Mirrors the Rust saturating arithmetic. -/
def scrollAxis (o c size : Nat) : Nat :=
  if c < o then c
  else if satAdd o size ≤ c then satAdd (c - size) 1
  else o

/-- `Editor::scroll`'s offset recomputation (editor.rs lines 178-194) as a
function of the old offset, the cursor and the terminal size. -/
def scrollOffset (offset cursor : Position) (width height : Nat) : Position :=
  { x := scrollAxis offset.x cursor.x width, y := scrollAxis offset.y cursor.y height }

/-- `Editor::scroll` (editor.rs lines 178-194). -/
def Editor.scroll (e : Editor) : Editor :=
  { e with offset := scrollOffset e.offset e.cursor_position e.termWidth e.termHeight }

/-- Modelled from the spec: `commands::cursor::move_up` (§4.4) — source file
not in the snapshot.  Up preserves the column where possible, clamped to the
target row's length. -/
def move_up (e : Editor) : Editor :=
  { e with cursor_position :=
      { x := min e.cursor_position.x (e.document.rowLen (e.cursor_position.y - 1)),
        y := e.cursor_position.y - 1 } }

/-- Modelled from the spec: `commands::cursor::move_down` (§4.4) — source
file not in the snapshot. -/
def move_down (e : Editor) : Editor :=
  if e.cursor_position.y < e.document.len then
    { e with cursor_position :=
        { x := min e.cursor_position.x (e.document.rowLen (e.cursor_position.y + 1)),
          y := e.cursor_position.y + 1 } }
  else e

/-- Modelled from the spec: `commands::cursor::move_left` (§4.4) — source
file not in the snapshot.  Left at column 0 moves to the end of the previous
row if one exists. -/
def move_left (e : Editor) : Editor :=
  if 0 < e.cursor_position.x then
    { e with cursor_position := { x := e.cursor_position.x - 1, y := e.cursor_position.y } }
  else if 0 < e.cursor_position.y then
    { e with cursor_position :=
        { x := e.document.rowLen (e.cursor_position.y - 1), y := e.cursor_position.y - 1 } }
  else e

/-- Modelled from the spec: `commands::cursor::move_right` (§4.4) — source
file not in the snapshot.  Right at end of row moves to column 0 of the next
row if one exists. -/
def move_right (e : Editor) : Editor :=
  if e.cursor_position.x < e.document.rowLen e.cursor_position.y then
    { e with cursor_position := { x := e.cursor_position.x + 1, y := e.cursor_position.y } }
  else if e.cursor_position.y < e.document.len then
    { e with cursor_position := { x := 0, y := e.cursor_position.y + 1 } }
  else e

/-- Modelled from the spec: `commands::cursor::move_start_of_row` (§4.4). -/
def move_start_of_row (e : Editor) : Editor :=
  { e with cursor_position := { x := 0, y := e.cursor_position.y } }

/-- Modelled from the spec: `commands::cursor::move_end_of_row` (§4.4). -/
def move_end_of_row (e : Editor) : Editor :=
  { e with cursor_position :=
      { x := e.document.rowLen e.cursor_position.y, y := e.cursor_position.y } }

/-- Modelled from the spec: `commands::view::scroll_up` (Page Up, §4.4) —
moves by one full viewport height, clamped to document bounds. -/
def view_scroll_up (e : Editor) : Editor :=
  { e with cursor_position :=
      { x := min e.cursor_position.x (e.document.rowLen (e.cursor_position.y - e.termHeight)),
        y := e.cursor_position.y - e.termHeight } }

/-- Modelled from the spec: `commands::view::scroll_down` (Page Down, §4.4). -/
def view_scroll_down (e : Editor) : Editor :=
  { e with cursor_position :=
      { x := min e.cursor_position.x
          (e.document.rowLen (min (e.cursor_position.y + e.termHeight) e.document.len)),
        y := min (e.cursor_position.y + e.termHeight) e.document.len } }

/-- The pure commands of `Editor::execute` (editor.rs lines 155-176).
`DocumentSave` and `DocumentSearch` perform terminal interaction and are
dispatched separately (`save`, `search` below); on them and on any unknown
command this is the identity, matching the `_ => ()` arm.  The Rust
`DocumentInsert` arm recursively executes `CursorMoveRight`, inlined here. -/
def executeC (e : Editor) : Command → Editor
  | Command.CursorMoveUp => move_up e
  | Command.CursorMoveDown => move_down e
  | Command.CursorMoveLeft => move_left e
  | Command.CursorMoveRight => move_right e
  | Command.CursorMoveStart => move_start_of_row e
  | Command.CursorMoveEnd => move_end_of_row e
  | Command.DocumentInsert c =>
      move_right { e with document := e.document.insert e.cursor_position c }
  | Command.DocumentPageUp => view_scroll_up e
  | Command.DocumentPageDown => view_scroll_down e
  | Command.EditorSwitchMode m => { e with mode := m }
  | _ => e

/-- Rust `char::is_control` (Unicode general category Cc:
U+0000..U+001F and U+007F..U+009F). -/
def isRustControl (c : Char) : Bool := c.toNat < 32 || (127 ≤ c.toNat && c.toNat ≤ 159)

/-- Rust `result.truncate(result.len().saturating_sub(1))` on the prompt's
accumulated input (editor.rs line 323).  Rust `String::len` counts UTF-8
bytes and `String::truncate` keeps the first `new_len` bytes, panicking when
`new_len` is not a character boundary.  With `new_len = len - 1`: on an
empty string the call is a no-op; when the last accumulated character is a
single-byte character, `len - 1` is the boundary in front of it and exactly
that character is removed; when the last character is multibyte, `len - 1`
falls inside its encoding and the Rust process panics — modelled as
`none`. -/
def promptBackspace (r : String) : Option String :=
  match r.toList.getLast? with
  | none => some r
  | some c => if Char.utf8Size c = 1 then some (r.dropRight 1) else none

/-- The effect of one key on the prompt's accumulated input
(`Editor::prompt`, editor.rs lines 322-335). -/
inductive PKind where
  | stop : String → PKind
  | go : String → PKind
  | abort : PKind
deriving DecidableEq

/-- Classification of one key inside the prompt loop's `match`
(editor.rs lines 322-335): `stop v` means the loop breaks with accumulated
input `v` (Enter keeps it, Escape clears it); `go r` means the loop goes on
with accumulated input `r` and then invokes the callback; `abort` is the
Rust panic of the byte-indexed Backspace truncate. -/
def promptClassify (r : String) (k : Key) : PKind :=
  match k with
  | Key.Backspace =>
      match promptBackspace r with
      | some r' => PKind.go r'
      | none => PKind.abort
  | Key.Char c =>
      if c = '\n' then PKind.stop r
      else PKind.go (if isRustControl c then r else r.push c)
  | Key.Esc => PKind.stop ""
  | _ => PKind.go r

/-- Outcome of a terminated prompt loop: the threaded callback state, the
log of callback invocations (key read, accumulated input passed), the final
accumulated input and the returned value. -/
structure PromptResult (S : Type) where
  state : S
  calls : List (Key × String)
  final : String
  ret : Option String
deriving DecidableEq

/-- Packaging of the prompt loop's exit (editor.rs lines 339-344): the
return value is `none` exactly when the final accumulated input is empty. -/
def promptFinish {S : Type} (s : S) (log : List (Key × String)) (v : String) : PromptResult S :=
  { state := s, calls := log, final := v, ret := if v.isEmpty then none else some v }

/-- How a run of the prompt loop ends: `ok` with a result when Enter or
Escape terminated it, `abort` when a Backspace hit the byte-truncate panic
(the Rust process dies), `pending` when the explicit key list was exhausted
(the real loop would block reading another key). -/
inductive PromptOutcome (S : Type) where
  | ok : PromptResult S → PromptOutcome S
  | abort : PromptOutcome S
  | pending : PromptOutcome S
deriving DecidableEq

/-- `Editor::prompt`'s loop (editor.rs lines 311-345) over an explicit list
of keys to be read, threading the callback state `s` and logging each
callback invocation.  The per-iteration status-message update (line 318) is
omitted: the exit path overwrites the status (line 339), which the callers
model. -/
def promptGo {S : Type} (cb : S → Key → String → S) :
    List Key → S → String → List (Key × String) → PromptOutcome S
  | [], _, _, _ => PromptOutcome.pending
  | k :: ks, s, r, log =>
    match promptClassify r k with
    | PKind.stop v => PromptOutcome.ok (promptFinish s log v)
    | PKind.go r' => promptGo cb ks (cb s k r') r' (log ++ [(k, r')])
    | PKind.abort => PromptOutcome.abort

/-- The type of `Document::find` (§4.2): query, start position, direction to
an optional match position.  Its source file is not in the snapshot; the
theorems about `Editor::search` are stated for every such function. -/
abbrev FindFn := Document → String → Position → SearchDirection → Option Position

/-- The tail of the search callback after the direction dispatch
(editor.rs lines 384-394): run `find`, on a match jump there and scroll,
otherwise undo a prior cursor advance; finally record the highlighted
word. -/
def searchAfterFind (find : FindFn) (e : Editor) (d : SearchDirection) (moved : Bool)
    (q : String) : Editor × SearchDirection :=
  match find e.document q e.cursor_position d with
  | some position =>
      ({ Editor.scroll { e with cursor_position := position } with highlighted_word := some q }, d)
  | none =>
      if moved then ({ executeC e Command.CursorMoveLeft with highlighted_word := some q }, d)
      else ({ e with highlighted_word := some q }, d)

/-- The closure passed by `Editor::search` to `prompt`
(editor.rs lines 373-395); the captured mutable `direction` is threaded as
the second component of the state. -/
def searchCallback (find : FindFn) (s : Editor × SearchDirection) (k : Key) (q : String) :
    Editor × SearchDirection :=
  if k = Key.Right ∨ k = Key.Down then
    searchAfterFind find (executeC s.1 Command.CursorMoveRight) SearchDirection.Forward true q
  else if k = Key.Left ∨ k = Key.Up then
    searchAfterFind find s.1 SearchDirection.Backward false q
  else
    searchAfterFind find s.1 SearchDirection.Forward false q

/-- `Editor::search` (editor.rs lines 366-404): remembers the starting
cursor position, runs the prompt with `searchCallback`, on a cancelled or
empty query restores the cursor (and scrolls), and always clears
`highlighted_word`.  The prompt's exit clears the status text
(editor.rs line 339). -/
def search (find : FindFn) (pks : List Key) (e : Editor) : Option Editor :=
  match promptGo (searchCallback find) pks (e, SearchDirection.Forward) "" [] with
  | PromptOutcome.pending => none
  | PromptOutcome.abort => none
  | PromptOutcome.ok res =>
    match res.ret with
    | none =>
        some { Editor.scroll
            { res.state.1 with status_text := "", cursor_position := e.cursor_position } with
          highlighted_word := none }
    | some _ => some { res.state.1 with status_text := "", highlighted_word := none }

/-- Modelled from the spec: `Document::save` (§4.2, source file not in the
snapshot) — success is decided by the file collaborator (`fsOk`); on success
`dirty` is cleared — combined with the surrounding status reporting of
`Editor::save` (editor.rs lines 359-363). -/
def docSave (fsOk : Bool) (e : Editor) : Editor :=
  if fsOk then
    { e with document := { e.document with dirty := false },
             status_text := "File saved successfully." }
  else { e with status_text := "Error writing file" }

/-- `Editor::save` (editor.rs lines 347-364): with no file name, prompt for
one (trivial callback); an aborted prompt reports "Save aborted."; otherwise
the document is saved and the outcome reported. -/
def save (fsOk : Bool) (pks : List Key) (e : Editor) : Option Editor :=
  match e.document.file_name with
  | none =>
    match promptGo (fun s _ _ => s) pks e "" [] with
    | PromptOutcome.pending => none
    | PromptOutcome.abort => none
    | PromptOutcome.ok res =>
      match res.ret with
      | none => some { res.state with status_text := "Save aborted." }
      | some name =>
          some (docSave fsOk
            { res.state with
              status_text := "",
              document := { res.state.document with file_name := some name } })
  | some _ => some (docSave fsOk e)

/-- The quit warning text of `editor.rs` lines 113-116, with the current
countdown interpolated. -/
def quitWarningText (n : Nat) : String :=
  "WARNING! File has unsaved changes. Press Ctrl-Q " ++ toString n ++ " more times to quit."

/-- The tail of `Editor::process_keypress` (editor.rs lines 147-151) run by
every path except the quit-pending early return: scroll, then reset the quit
countdown and clear the status message if the countdown had been lowered. -/
def afterKey (e : Editor) : Editor :=
  if (Editor.scroll e).quit_times < QUIT_TIMES then
    { Editor.scroll e with quit_times := QUIT_TIMES, status_text := "" }
  else Editor.scroll e

/-- `Editor::process_keypress` (editor.rs lines 99-153) for one read key
`k`; `pks` are the keys a nested prompt (save-as or search) would read,
`find` the search function and `fsOk` the file collaborator's verdict.
`none` only when a nested prompt exhausts `pks`. -/
def process_keypress (find : FindFn) (fsOk : Bool) (k : Key) (pks : List Key) (e : Editor) :
    Option Editor :=
  match e.mode with
  | EditorMode.Normal =>
    match k with
    | Key.Char c =>
        if c = 'i' then some (afterKey (executeC e (Command.EditorSwitchMode EditorMode.Insert)))
        else some (afterKey e)
    | _ => some (afterKey e)
  | EditorMode.Insert =>
    match k with
    | Key.Esc => some (afterKey (executeC e (Command.EditorSwitchMode EditorMode.Normal)))
    | Key.Ctrl c =>
        if c = 'q' then
          if 0 < e.quit_times ∧ e.document.dirty = true then
            some { e with
              status_text := quitWarningText e.quit_times,
              quit_times := e.quit_times - 1 }
          else some (afterKey { e with should_quit := true })
        else if c = 's' then (save fsOk pks e).map afterKey
        else if c = 'f' then (search find pks e).map afterKey
        else some (afterKey e)
    | Key.Char c => some (afterKey (executeC e (Command.DocumentInsert c)))
    | Key.Delete => some (afterKey { e with document := e.document.delete e.cursor_position })
    | Key.Backspace =>
        if 0 < e.cursor_position.x ∨ 0 < e.cursor_position.y then
          some (afterKey
            { executeC e Command.CursorMoveLeft with
              document := (executeC e Command.CursorMoveLeft).document.delete
                (executeC e Command.CursorMoveLeft).cursor_position })
        else some (afterKey e)
    | Key.Up => some (afterKey (executeC e Command.CursorMoveUp))
    | Key.Down => some (afterKey (executeC e Command.CursorMoveDown))
    | Key.Left => some (afterKey (executeC e Command.CursorMoveLeft))
    | Key.Right => some (afterKey (executeC e Command.CursorMoveRight))
    | Key.PageUp => some (afterKey (executeC e Command.DocumentPageUp))
    | Key.PageDown => some (afterKey (executeC e Command.DocumentPageDown))
    | Key.Home => some (afterKey (executeC e Command.CursorMoveStart))
    | Key.End => some (afterKey (executeC e Command.CursorMoveEnd))
    | _ => some (afterKey e)
  | EditorMode.Command => some (afterKey e)

/-- Pressing Ctrl-Q `n` times in a row (each press going through
`process_keypress`). -/
def iterQ (find : FindFn) (fsOk : Bool) (pks : List Key) : Nat → Editor → Option Editor
  | 0, e => some e
  | n + 1, e => (process_keypress find fsOk (Key.Ctrl 'q') pks e).bind (iterQ find fsOk pks n)

/-- A search function that never matches, used to instantiate theorems at
concrete inputs. -/
def find0 : FindFn := fun _ _ _ _ => none

/-- A concrete dirty two-line document. -/
def doc0 : Document := { rows := ["ab", "cd"], dirty := true, file_name := none }

/-- A concrete editor state: Insert mode, dirty document, quit countdown at
its initial value. -/
def e0 : Editor :=
  { should_quit := false, termWidth := 10, termHeight := 5,
    cursor_position := { x := 0, y := 0 }, offset := { x := 0, y := 0 },
    document := doc0, status_text := "", quit_times := QUIT_TIMES,
    highlighted_word := none, mode := EditorMode.Insert }

/-! Helper lemmas about one scroll axis. -/

theorem scrollAxis_bounds (o c size : Nat) (hs : 0 < size) (hc : c ≤ USIZE_MAX) :
    scrollAxis o c size ≤ c ∧ c < scrollAxis o c size + size := by
  unfold scrollAxis satAdd
  unfold USIZE_MAX at hc ⊢
  split_ifs <;> omega

theorem scrollAxis_cases (o c size : Nat) (hs : 0 < size) (hc : c ≤ USIZE_MAX)
    (ho : o + size ≤ USIZE_MAX) :
    (c < o → scrollAxis o c size = c) ∧
    (o + size ≤ c → scrollAxis o c size = c - size + 1) ∧
    (o ≤ c ∧ c < o + size → scrollAxis o c size = o) := by
  unfold scrollAxis satAdd
  unfold USIZE_MAX at hc ho ⊢
  refine ⟨fun h1 => ?_, fun h2 => ?_, fun h3 => ?_⟩ <;> split_ifs <;> omega

/-- C3: after every `scroll` recomputation the cursor lies inside the
viewport on both axes: `offset.y ≤ cursor.y < offset.y + height` and
`offset.x ≤ cursor.x < offset.x + width`, for any prior offset and any
cursor position within the `usize` range; the terminal extents are positive
(with a zero extent the half-open window is empty and no offset could
satisfy the invariant).  Offsets are `Nat` in the model, hence never
negative. -/
theorem scroll_viewport_invariant (off c : Position) (w h : Nat)
    (hw : 0 < w) (hh : 0 < h) (hx : c.x ≤ USIZE_MAX) (hy : c.y ≤ USIZE_MAX) :
    ((scrollOffset off c w h).y ≤ c.y ∧ c.y < (scrollOffset off c w h).y + h) ∧
    ((scrollOffset off c w h).x ≤ c.x ∧ c.x < (scrollOffset off c w h).x + w) := by
  have h1 := scrollAxis_bounds off.y c.y h hh hy
  have h2 := scrollAxis_bounds off.x c.x w hw hx
  exact ⟨h1, h2⟩

theorem scroll_viewport_invariant_witness :
    ((0:Nat) < 10 ∧ (0:Nat) < 5 ∧ (12:Nat) ≤ USIZE_MAX ∧ (7:Nat) ≤ USIZE_MAX) ∧
    (((scrollOffset ⟨0, 0⟩ ⟨12, 7⟩ 10 5).y ≤ 7 ∧ 7 < (scrollOffset ⟨0, 0⟩ ⟨12, 7⟩ 10 5).y + 5) ∧
     ((scrollOffset ⟨0, 0⟩ ⟨12, 7⟩ 10 5).x ≤ 12 ∧
      12 < (scrollOffset ⟨0, 0⟩ ⟨12, 7⟩ 10 5).x + 10)) :=
  ⟨⟨by decide, by decide, by decide, by decide⟩,
   scroll_viewport_invariant ⟨0, 0⟩ ⟨12, 7⟩ 10 5 (by decide) (by decide) (by decide) (by decide)⟩

/-- C4: the scroll recomputation follows the minimal-scroll rule: on the
vertical axis, a cursor above the window pulls the offset up to the cursor
row, a cursor at or below the bottom edge sets the offset to
`cursor.y - height + 1`, and otherwise the offset is unchanged; the
symmetric rule holds horizontally.  All arithmetic saturates (`Nat`
subtraction models `saturating_sub`, so nothing underflows below zero); the
bounds hypotheses say the quantities are in the `usize` range so that the
saturating operations coincide with exact arithmetic. -/
theorem scroll_minimal_rule (off c : Position) (w h : Nat)
    (hw : 0 < w) (hh : 0 < h) (hx : c.x ≤ USIZE_MAX) (hy : c.y ≤ USIZE_MAX)
    (hox : off.x + w ≤ USIZE_MAX) (hoy : off.y + h ≤ USIZE_MAX) :
    ((c.y < off.y → (scrollOffset off c w h).y = c.y) ∧
     (off.y + h ≤ c.y → (scrollOffset off c w h).y = c.y - h + 1) ∧
     (off.y ≤ c.y ∧ c.y < off.y + h → (scrollOffset off c w h).y = off.y)) ∧
    ((c.x < off.x → (scrollOffset off c w h).x = c.x) ∧
     (off.x + w ≤ c.x → (scrollOffset off c w h).x = c.x - w + 1) ∧
     (off.x ≤ c.x ∧ c.x < off.x + w → (scrollOffset off c w h).x = off.x)) := by
  have h1 := scrollAxis_cases off.y c.y h hh hy hoy
  have h2 := scrollAxis_cases off.x c.x w hw hx hox
  exact ⟨h1, h2⟩

theorem scroll_minimal_rule_witness :
    ((30:Nat) < 1 + 10 → False) ∧
    (scrollOffset ⟨1, 2⟩ ⟨30, 40⟩ 10 5).x = 30 - 10 + 1 ∧
    (scrollOffset ⟨1, 2⟩ ⟨30, 40⟩ 10 5).y = 40 - 5 + 1 :=
  ⟨by decide,
   (scroll_minimal_rule ⟨1, 2⟩ ⟨30, 40⟩ 10 5 (by decide) (by decide) (by decide) (by decide)
      (by decide) (by decide)).2.2.1 (by decide),
   (scroll_minimal_rule ⟨1, 2⟩ ⟨30, 40⟩ 10 5 (by decide) (by decide) (by decide) (by decide)
      (by decide) (by decide)).1.2.1 (by decide)⟩

/-- A callback that counts its own invocations, for exercising the prompt
loop on concrete inputs. -/
def cbCount : Nat → Key → String → Nat := fun n _ _ => n + 1

/-- C6: the code deviates from the claim's Backspace clause.  The prompt
accepts any printable character, including multibyte ones (editor.rs
325-328), but Backspace runs `result.truncate(result.len() - 1)` with a
byte-indexed length (line 323): when the last accumulated character is
multibyte, `len - 1` is not a character boundary and the Rust process
panics instead of removing the character.  This theorem evaluates the
prompt loop at the failing input — type the printable two-byte character
U+00E9 and press Backspace — to the abort outcome. -/
theorem prompt_backspace_multibyte_aborts :
    promptGo (fun (s : Unit) _ _ => s) [Key.Char 'é', Key.Backspace] () "" [] =
      PromptOutcome.abort := by
  decide

/-- C5 is false: the prompt loop `break`s on Enter (and Escape) before the
per-iteration callback call, so the callback is not invoked for the
terminating key.  Concretely, feeding the keys 'a', Enter to the prompt with
an invocation-counting callback terminates with exactly one recorded
invocation — for the 'a' key only, none for Enter. -/
theorem prompt_callback_skipped_on_enter :
    promptGo cbCount [Key.Char 'a', Key.Char '\n'] 0 "" [] =
      PromptOutcome.ok
        { state := 1, calls := [(Key.Char 'a', "a")], final := "a", ret := some "a" } := by
  decide

/-- C5 (amended): in the prompt loop the caller-supplied callback is invoked
after every key read except the terminating Enter and Escape keys and
except a Backspace pressed while the accumulated input ends in a multibyte
character (there the byte-indexed truncate panics and the loop aborts with
no callback call); every other key invokes the callback with the
accumulated input current at that point (the input as updated by that key);
Enter and Escape terminate the loop without a callback invocation. -/
theorem prompt_callback_on_every_nonterminating_key {S : Type} (cb : S → Key → String → S)
    (ks : List Key) (s : S) (r : String) (log : List (Key × String)) :
    (∀ k : Key, k ≠ Key.Esc → (∀ c : Char, k = Key.Char c → c ≠ '\n') →
      (k = Key.Backspace → promptBackspace r ≠ none) →
      ∃ r' : String, promptGo cb (k :: ks) s r log =
        promptGo cb ks (cb s k r') r' (log ++ [(k, r')])) ∧
    (∀ res, (promptGo cb (Key.Char '\n' :: ks) s r log = PromptOutcome.ok res ∨
             promptGo cb (Key.Esc :: ks) s r log = PromptOutcome.ok res) →
      res.state = s ∧ res.calls = log) ∧
    (promptBackspace r = none →
      promptGo cb (Key.Backspace :: ks) s r log = PromptOutcome.abort) := by
  refine ⟨?_, ?_, ?_⟩
  · intro k hesc hnl hbk
    cases k
    case Esc => exact absurd rfl hesc
    case Char c =>
      have hc : c ≠ '\n' := hnl c rfl
      refine ⟨if isRustControl c then r else r.push c, ?_⟩
      rw [promptGo]
      simp [promptClassify, hc]
    case Backspace =>
      cases hb : promptBackspace r with
      | none => exact absurd hb (hbk rfl)
      | some r2 =>
        refine ⟨r2, ?_⟩
        rw [promptGo]
        simp [promptClassify, hb]
    all_goals
      refine ⟨r, ?_⟩
      rw [promptGo]
      simp [promptClassify]
  · intro res h
    rcases h with h | h <;>
      · rw [promptGo] at h
        simp [promptClassify] at h
        subst h
        simp [promptFinish]
  · intro hb
    rw [promptGo]
    simp [promptClassify, hb]

theorem prompt_callback_on_every_nonterminating_key_witness :
    ∃ r' : String, promptGo cbCount [Key.Up, Key.Esc] 0 "ab" [] =
      promptGo cbCount [Key.Esc] (cbCount 0 Key.Up r') r' ([] ++ [(Key.Up, r')]) :=
  (prompt_callback_on_every_nonterminating_key cbCount [Key.Esc] 0 "ab" []).1 Key.Up
    (by decide) (fun c h => Key.noConfusion h) (fun h => Key.noConfusion h)

/-! Small facts about the editor operations used by the search callback. -/

theorem move_right_document (e : Editor) : (move_right e).document = e.document := by
  unfold move_right
  split_ifs <;> rfl

theorem scroll_cursor (e : Editor) : (Editor.scroll e).cursor_position = e.cursor_position := rfl

/-- C7: if the search prompt yields no query (cancelled via Escape or ended
with empty input), `search` restores the cursor to the position recorded
when the search began, and in every case `highlighted_word` is cleared when
the search ends. -/
theorem search_cancel_restores_cursor (find : FindFn) (pks : List Key) (e : Editor)
    (res : PromptResult (Editor × SearchDirection))
    (h : promptGo (searchCallback find) pks (e, SearchDirection.Forward) "" [] =
      PromptOutcome.ok res) :
    ∃ e', search find pks e = some e' ∧ e'.highlighted_word = none ∧
      (res.ret = none → e'.cursor_position = e.cursor_position) := by
  unfold search
  rw [h]
  obtain ⟨⟨e1, d1⟩, calls, fin, ret⟩ := res
  cases ret with
  | none => exact ⟨_, rfl, rfl, fun _ => rfl⟩
  | some v => exact ⟨_, rfl, rfl, fun hc => by simp at hc⟩

theorem search_cancel_restores_cursor_witness :
    ∃ e', search find0 [Key.Esc] e0 = some e' ∧ e'.highlighted_word = none ∧
      ((promptFinish (e0, SearchDirection.Forward) [] "").ret = none →
        e'.cursor_position = e0.cursor_position) :=
  search_cancel_restores_cursor find0 [Key.Esc] e0
    (promptFinish (e0, SearchDirection.Forward) [] "") rfl

/-- The position named by C8 as the start of the re-invoked `find`: for
Right and Down the cursor is first advanced one step right, for every other
key it is the current cursor position.  Written from the claim's words, for
comparison with `searchCallback`. -/
def searchProbePosition (e : Editor) (k : Key) : Position :=
  if k = Key.Right ∨ k = Key.Down then (move_right e).cursor_position else e.cursor_position

/-- The direction named by C8 for each key: Up and Left select Backward,
every other key selects Forward.  Written from the claim's words. -/
def searchProbeDirection (k : Key) : SearchDirection :=
  if k = Key.Left ∨ k = Key.Up then SearchDirection.Backward else SearchDirection.Forward

theorem searchAfterFind_congr (f1 f2 : FindFn) (e : Editor) (d : SearchDirection) (m : Bool)
    (q : String) (h : f1 e.document q e.cursor_position d = f2 e.document q e.cursor_position d) :
    searchAfterFind f1 e d m q = searchAfterFind f2 e d m q := by
  unfold searchAfterFind
  rw [h]

theorem searchAfterFind_found (find : FindFn) (e : Editor) (d : SearchDirection) (m : Bool)
    (q : String) (p : Position) (h : find e.document q e.cursor_position d = some p) :
    (searchAfterFind find e d m q).1.cursor_position = p ∧
    (searchAfterFind find e d m q).2 = d := by
  unfold searchAfterFind
  rw [h]
  exact ⟨rfl, rfl⟩

/-- C8: each keystroke of an active search re-invokes `find` from the
cursor's current position with the direction implied by the key — Up/Left
give Backward; Right/Down give Forward after first advancing the cursor one
step right; any other key gives Forward from the unmoved cursor.  Stated as:
(1) the callback's result depends on `find` only through its value at
exactly that position and direction (so that is where `find` is invoked),
and (2) when `find` returns a match there, the cursor lands on it and the
retained direction is the implied one. -/
theorem search_keystroke_find_args (e : Editor) (d : SearchDirection) (q : String) (k : Key) :
    (∀ f1 f2 : FindFn,
        f1 e.document q (searchProbePosition e k) (searchProbeDirection k) =
          f2 e.document q (searchProbePosition e k) (searchProbeDirection k) →
        searchCallback f1 (e, d) k q = searchCallback f2 (e, d) k q) ∧
    (∀ (find : FindFn) (p : Position),
        find e.document q (searchProbePosition e k) (searchProbeDirection k) = some p →
        (searchCallback find (e, d) k q).1.cursor_position = p ∧
        (searchCallback find (e, d) k q).2 = searchProbeDirection k) := by
  constructor
  · intro f1 f2 hag
    unfold searchProbePosition searchProbeDirection at hag
    unfold searchCallback
    split_ifs at hag ⊢ with h1 h2
    · rcases h1 with rfl | rfl <;> rcases h2 with h2 | h2 <;> simp at h2
    · apply searchAfterFind_congr
      show f1 (move_right e).document q (move_right e).cursor_position SearchDirection.Forward =
        f2 (move_right e).document q (move_right e).cursor_position SearchDirection.Forward
      rw [move_right_document]
      exact hag
    · exact searchAfterFind_congr f1 f2 e SearchDirection.Backward false q hag
    · exact searchAfterFind_congr f1 f2 e SearchDirection.Forward false q hag
  · intro find p hp
    unfold searchProbePosition searchProbeDirection at hp
    unfold searchProbeDirection
    unfold searchCallback
    split_ifs at hp ⊢ with h1 h2
    · rcases h1 with rfl | rfl <;> rcases h2 with h2 | h2 <;> simp at h2
    · have hp' : find (executeC (e, d).1 Command.CursorMoveRight).document q
          (executeC (e, d).1 Command.CursorMoveRight).cursor_position SearchDirection.Forward =
          some p := by
        show find (move_right e).document q (move_right e).cursor_position
          SearchDirection.Forward = some p
        rw [move_right_document]
        exact hp
      exact searchAfterFind_found find _ SearchDirection.Forward true q p hp'
    · exact searchAfterFind_found find _ SearchDirection.Backward false q p hp
    · exact searchAfterFind_found find _ SearchDirection.Forward false q p hp

/-- A search function that matches only Forward searches, at the origin. -/
def findB : FindFn := fun _ _ _ d =>
  if d = SearchDirection.Backward then none else some { x := 0, y := 0 }

/-- A search function that always reports a match at column 5 of row 0. -/
def findC : FindFn := fun _ _ _ _ => some { x := 5, y := 0 }

theorem search_keystroke_find_args_witness :
    searchCallback find0 (e0, SearchDirection.Forward) Key.Left "ab" =
      searchCallback findB (e0, SearchDirection.Forward) Key.Left "ab" ∧
    ((searchCallback findC (e0, SearchDirection.Forward) Key.Home "ab").1.cursor_position =
        ({ x := 5, y := 0 } : Position) ∧
     (searchCallback findC (e0, SearchDirection.Forward) Key.Home "ab").2 =
        searchProbeDirection Key.Home) :=
  ⟨(search_keystroke_find_args e0 SearchDirection.Forward "ab" Key.Left).1 find0 findB
      (by decide),
   (search_keystroke_find_args e0 SearchDirection.Forward "ab" Key.Home).2 findC
      { x := 5, y := 0 } (by decide)⟩

/-! Preservation machinery: the fields of the editor that the quit protocol
reads are untouched by cursor movement, scrolling, the prompt loop and the
save/search flows. -/

/-- Two editor states agreeing on the quit countdown, the quit flag and the
mode. -/
def sameCore (a b : Editor) : Prop :=
  a.quit_times = b.quit_times ∧ a.should_quit = b.should_quit ∧ a.mode = b.mode

theorem sameCore_refl (e : Editor) : sameCore e e := ⟨rfl, rfl, rfl⟩

theorem sameCore_trans {a b c : Editor} (h1 : sameCore a b) (h2 : sameCore b c) :
    sameCore a c :=
  ⟨h1.1.trans h2.1, h1.2.1.trans h2.2.1, h1.2.2.trans h2.2.2⟩

theorem executeC_quit_flag (e : Editor) (c : Command) :
    (executeC e c).quit_times = e.quit_times ∧ (executeC e c).should_quit = e.should_quit := by
  cases c <;> constructor <;>
    simp [executeC, move_up, move_down, move_left, move_right, move_start_of_row,
      move_end_of_row, view_scroll_up, view_scroll_down] <;>
    (try split_ifs) <;> rfl

theorem executeC_mode (e : Editor) (c : Command) :
    (executeC e c).mode = (match c with
      | Command.EditorSwitchMode m => m
      | _ => e.mode) := by
  cases c <;>
    simp [executeC, move_up, move_down, move_left, move_right, move_start_of_row,
      move_end_of_row, view_scroll_up, view_scroll_down] <;>
    (try split_ifs) <;> rfl

theorem executeC_moveRight_sameCore (e : Editor) :
    sameCore (executeC e Command.CursorMoveRight) e :=
  ⟨(executeC_quit_flag e _).1, (executeC_quit_flag e _).2, by rw [executeC_mode]⟩

theorem executeC_moveLeft_sameCore (e : Editor) :
    sameCore (executeC e Command.CursorMoveLeft) e :=
  ⟨(executeC_quit_flag e _).1, (executeC_quit_flag e _).2, by rw [executeC_mode]⟩

theorem searchAfterFind_sameCore (find : FindFn) (e : Editor) (d : SearchDirection) (m : Bool)
    (q : String) : sameCore (searchAfterFind find e d m q).1 e := by
  unfold searchAfterFind
  cases h : find e.document q e.cursor_position d with
  | some p => exact ⟨rfl, rfl, rfl⟩
  | none =>
    split_ifs with hm
    · exact executeC_moveLeft_sameCore e
    · exact sameCore_refl e

theorem searchCallback_sameCore (find : FindFn) (s : Editor × SearchDirection) (k : Key)
    (q : String) : sameCore (searchCallback find s k q).1 s.1 := by
  unfold searchCallback
  split_ifs
  · exact sameCore_trans (searchAfterFind_sameCore find _ _ _ _) (executeC_moveRight_sameCore s.1)
  · exact searchAfterFind_sameCore find _ _ _ _
  · exact searchAfterFind_sameCore find _ _ _ _

theorem promptGo_inv {S : Type} (P : S → Prop) (cb : S → Key → String → S)
    (hcb : ∀ (s : S) (k : Key) (r : String), P s → P (cb s k r)) :
    ∀ (ks : List Key) (s : S) (r : String) (log : List (Key × String))
      (res : PromptResult S),
      promptGo cb ks s r log = PromptOutcome.ok res → P s → P res.state := by
  intro ks
  induction ks with
  | nil => intro s r log res h hP; simp [promptGo] at h
  | cons k ks ih =>
    intro s r log res h hP
    rw [promptGo] at h
    rcases hcl : promptClassify r k with v | r' | _
    · rw [hcl] at h
      simp only [PromptOutcome.ok.injEq] at h
      subst h
      exact hP
    · rw [hcl] at h
      exact ih _ _ _ _ h (hcb s k r' hP)
    · rw [hcl] at h
      simp at h

theorem promptGo_id_state {S : Type} (ks : List Key) (s : S) (r : String)
    (log : List (Key × String)) (res : PromptResult S)
    (h : promptGo (fun s _ _ => s) ks s r log = PromptOutcome.ok res) : res.state = s :=
  promptGo_inv (fun x => x = s) (fun s _ _ => s) (fun _ _ _ hp => hp) ks s r log res h rfl

theorem save_sameCore (fsOk : Bool) (pks : List Key) (e e' : Editor)
    (h : save fsOk pks e = some e') : sameCore e' e := by
  unfold save at h
  cases hf : e.document.file_name with
  | some name =>
    rw [hf] at h
    simp only [Option.some.injEq] at h
    subst h
    unfold docSave
    split_ifs <;> exact ⟨rfl, rfl, rfl⟩
  | none =>
    rw [hf] at h
    cases hp : promptGo (fun s _ _ => s) pks e "" [] with
    | pending => rw [hp] at h; simp at h
    | abort => rw [hp] at h; simp at h
    | ok res =>
      rw [hp] at h
      have hst : res.state = e := promptGo_id_state pks e "" [] res hp
      obtain ⟨s1, calls1, fin1, ret1⟩ := res
      have hs1 : s1 = e := hst
      subst hs1
      cases ret1 with
      | none =>
        simp only [Option.some.injEq] at h
        subst h
        exact ⟨rfl, rfl, rfl⟩
      | some name =>
        simp only [Option.some.injEq] at h
        subst h
        unfold docSave
        split_ifs <;> exact ⟨rfl, rfl, rfl⟩

theorem search_sameCore (find : FindFn) (pks : List Key) (e e' : Editor)
    (h : search find pks e = some e') : sameCore e' e := by
  unfold search at h
  cases hp : promptGo (searchCallback find) pks (e, SearchDirection.Forward) "" [] with
  | pending => rw [hp] at h; simp at h
  | abort => rw [hp] at h; simp at h
  | ok res =>
    rw [hp] at h
    have hst : sameCore res.state.1 e :=
      promptGo_inv (fun s => sameCore s.1 e) (searchCallback find)
        (fun s k r hs => sameCore_trans (searchCallback_sameCore find s k r) hs)
        pks (e, SearchDirection.Forward) "" [] res hp (sameCore_refl e)
    obtain ⟨⟨e1, d1⟩, calls1, fin1, ret1⟩ := res
    have hs1 : sameCore e1 e := hst
    cases ret1 with
    | none =>
      simp only [Option.some.injEq] at h
      subst h
      exact sameCore_trans ⟨rfl, rfl, rfl⟩ hs1
    | some q =>
      simp only [Option.some.injEq] at h
      subst h
      exact sameCore_trans ⟨rfl, rfl, rfl⟩ hs1

theorem afterKey_fields (e : Editor) :
    (afterKey e).document = e.document ∧ (afterKey e).cursor_position = e.cursor_position ∧
    (afterKey e).should_quit = e.should_quit ∧ (afterKey e).mode = e.mode := by
  unfold afterKey
  split_ifs <;> exact ⟨rfl, rfl, rfl, rfl⟩

theorem afterKey_quit (e : Editor) (h : e.quit_times ≤ QUIT_TIMES) :
    (afterKey e).quit_times = QUIT_TIMES ∧
      (e.quit_times < QUIT_TIMES → (afterKey e).status_text = "") := by
  unfold afterKey
  have hsq : (Editor.scroll e).quit_times = e.quit_times := rfl
  split_ifs with hs
  · exact ⟨rfl, fun _ => rfl⟩
  · rw [hsq] at hs
    constructor
    · show (Editor.scroll e).quit_times = QUIT_TIMES
      rw [hsq]
      omega
    · intro hlt
      exact absurd hlt hs

theorem afterKey_quit_le (e : Editor) : e.quit_times ≤ (afterKey e).quit_times := by
  unfold afterKey
  have hsq : (Editor.scroll e).quit_times = e.quit_times := rfl
  split_ifs with hs
  · rw [hsq] at hs
    show e.quit_times ≤ QUIT_TIMES
    omega
  · rw [hsq]

theorem process_keypress_normal_eq (find : FindFn) (fsOk : Bool) (pks : List Key) (e : Editor)
    (hm : e.mode = EditorMode.Normal) (k : Key) :
    process_keypress find fsOk k pks e =
      (match k with
        | Key.Char c =>
            if c = 'i' then
              some (afterKey (executeC e (Command.EditorSwitchMode EditorMode.Insert)))
            else some (afterKey e)
        | _ => some (afterKey e)) := by
  obtain ⟨sq, tw, th, cp, off, doc, st, qt, hw, md⟩ := e
  have hmd : md = EditorMode.Normal := hm
  subst hmd
  cases k <;> rfl

theorem process_keypress_insert_eq (find : FindFn) (fsOk : Bool) (pks : List Key) (e : Editor)
    (hm : e.mode = EditorMode.Insert) (k : Key) :
    process_keypress find fsOk k pks e =
      (match k with
        | Key.Esc => some (afterKey (executeC e (Command.EditorSwitchMode EditorMode.Normal)))
        | Key.Ctrl c =>
            if c = 'q' then
              if 0 < e.quit_times ∧ e.document.dirty = true then
                some { e with
                  status_text := quitWarningText e.quit_times,
                  quit_times := e.quit_times - 1 }
              else some (afterKey { e with should_quit := true })
            else if c = 's' then (save fsOk pks e).map afterKey
            else if c = 'f' then (search find pks e).map afterKey
            else some (afterKey e)
        | Key.Char c => some (afterKey (executeC e (Command.DocumentInsert c)))
        | Key.Delete => some (afterKey { e with document := e.document.delete e.cursor_position })
        | Key.Backspace =>
            if 0 < e.cursor_position.x ∨ 0 < e.cursor_position.y then
              some (afterKey
                { executeC e Command.CursorMoveLeft with
                  document := (executeC e Command.CursorMoveLeft).document.delete
                    (executeC e Command.CursorMoveLeft).cursor_position })
            else some (afterKey e)
        | Key.Up => some (afterKey (executeC e Command.CursorMoveUp))
        | Key.Down => some (afterKey (executeC e Command.CursorMoveDown))
        | Key.Left => some (afterKey (executeC e Command.CursorMoveLeft))
        | Key.Right => some (afterKey (executeC e Command.CursorMoveRight))
        | Key.PageUp => some (afterKey (executeC e Command.DocumentPageUp))
        | Key.PageDown => some (afterKey (executeC e Command.DocumentPageDown))
        | Key.Home => some (afterKey (executeC e Command.CursorMoveStart))
        | Key.End => some (afterKey (executeC e Command.CursorMoveEnd))
        | _ => some (afterKey e)) := by
  obtain ⟨sq, tw, th, cp, off, doc, st, qt, hw, md⟩ := e
  have hmd : md = EditorMode.Insert := hm
  subst hmd
  cases k <;> rfl

theorem process_keypress_command_eq (find : FindFn) (fsOk : Bool) (pks : List Key) (e : Editor)
    (hm : e.mode = EditorMode.Command) (k : Key) :
    process_keypress find fsOk k pks e = some (afterKey e) := by
  obtain ⟨sq, tw, th, cp, off, doc, st, qt, hw, md⟩ := e
  have hmd : md = EditorMode.Command := hm
  subst hmd
  rfl

theorem process_keypress_ctrlq_eq (find : FindFn) (fsOk : Bool) (pks : List Key) (e : Editor)
    (hm : e.mode = EditorMode.Insert) :
    process_keypress find fsOk (Key.Ctrl 'q') pks e =
      (if 0 < e.quit_times ∧ e.document.dirty = true then
        some { e with
          status_text := quitWarningText e.quit_times,
          quit_times := e.quit_times - 1 }
      else some (afterKey { e with should_quit := true })) := by
  rw [process_keypress_insert_eq find fsOk pks e hm (Key.Ctrl 'q')]
  rfl

/-- C9: after `process_keypress` handles any key whose processing reaches
the end of the function (everything except the quit-pending early return),
the quit countdown is back at `QUIT_TIMES` and, if a quit warning had been
pending (countdown below its initial value), the status message is cleared.
The hypothesis `e.quit_times ≤ QUIT_TIMES` is the reachability invariant:
the countdown starts at `QUIT_TIMES` and is only ever decremented or reset
to `QUIT_TIMES`. -/
theorem process_keypress_resets_quit_countdown (find : FindFn) (fsOk : Bool) (k : Key)
    (pks : List Key) (e e' : Editor)
    (hq : e.quit_times ≤ QUIT_TIMES)
    (hnp : ¬(e.mode = EditorMode.Insert ∧ k = Key.Ctrl 'q' ∧ 0 < e.quit_times ∧
        e.document.dirty = true))
    (h : process_keypress find fsOk k pks e = some e') :
    e'.quit_times = QUIT_TIMES ∧ (e.quit_times < QUIT_TIMES → e'.status_text = "") := by
  have core : ∀ x : Editor, x.quit_times = e.quit_times → some (afterKey x) = some e' →
      e'.quit_times = QUIT_TIMES ∧ (e.quit_times < QUIT_TIMES → e'.status_text = "") := by
    intro x hx hsome
    injection hsome with hsome
    subst hsome
    obtain ⟨h1, h2⟩ := afterKey_quit x (by omega)
    exact ⟨h1, fun hlt => h2 (by omega)⟩
  cases hm : e.mode with
  | Normal =>
    rw [process_keypress_normal_eq find fsOk pks e hm k] at h
    cases k
    case Char c =>
      have h2 : (if c = 'i' then
          some (afterKey (executeC e (Command.EditorSwitchMode EditorMode.Insert)))
          else some (afterKey e)) = some e' := h
      split_ifs at h2
      · exact core _ (executeC_quit_flag e (Command.EditorSwitchMode EditorMode.Insert)).1 h2
      · exact core e rfl h2
    all_goals exact core e rfl h
  | Command =>
    rw [process_keypress_command_eq find fsOk pks e hm k] at h
    exact core e rfl h
  | Insert =>
    rw [process_keypress_insert_eq find fsOk pks e hm k] at h
    cases k
    case Esc => exact core _ (executeC_quit_flag e (Command.EditorSwitchMode EditorMode.Normal)).1 h
    case Char c => exact core _ (executeC_quit_flag e (Command.DocumentInsert c)).1 h
    case Ctrl c =>
      have h2 : (if c = 'q' then
          (if 0 < e.quit_times ∧ e.document.dirty = true then
            some { e with
              status_text := quitWarningText e.quit_times,
              quit_times := e.quit_times - 1 }
          else some (afterKey { e with should_quit := true }))
        else if c = 's' then (save fsOk pks e).map afterKey
        else if c = 'f' then (search find pks e).map afterKey
        else some (afterKey e)) = some e' := h
      by_cases hcq : c = 'q'
      · rw [if_pos hcq] at h2
        have hng : ¬(0 < e.quit_times ∧ e.document.dirty = true) := by
          intro hc
          exact hnp ⟨hm, by rw [hcq], hc.1, hc.2⟩
        rw [if_neg hng] at h2
        exact core { e with should_quit := true } rfl h2
      · rw [if_neg hcq] at h2
        by_cases hcs : c = 's'
        · rw [if_pos hcs] at h2
          cases hsv : save fsOk pks e with
          | none => rw [hsv] at h2; simp at h2
          | some es =>
            rw [hsv] at h2
            exact core es (save_sameCore fsOk pks e es hsv).1 h2
        · rw [if_neg hcs] at h2
          by_cases hcf : c = 'f'
          · rw [if_pos hcf] at h2
            cases hse : search find pks e with
            | none => rw [hse] at h2; simp at h2
            | some es =>
              rw [hse] at h2
              exact core es (search_sameCore find pks e es hse).1 h2
          · rw [if_neg hcf] at h2
            exact core e rfl h2
    case Delete =>
      exact core { e with document := e.document.delete e.cursor_position } rfl h
    case Backspace =>
      have h2 : (if 0 < e.cursor_position.x ∨ 0 < e.cursor_position.y then
          some (afterKey
            { executeC e Command.CursorMoveLeft with
              document := (executeC e Command.CursorMoveLeft).document.delete
                (executeC e Command.CursorMoveLeft).cursor_position })
          else some (afterKey e)) = some e' := h
      split_ifs at h2
      · exact core
          { executeC e Command.CursorMoveLeft with
            document := (executeC e Command.CursorMoveLeft).document.delete
              (executeC e Command.CursorMoveLeft).cursor_position }
          (executeC_quit_flag e Command.CursorMoveLeft).1 h2
      · exact core e rfl h2
    case Up => exact core _ (executeC_quit_flag e Command.CursorMoveUp).1 h
    case Down => exact core _ (executeC_quit_flag e Command.CursorMoveDown).1 h
    case Left => exact core _ (executeC_quit_flag e Command.CursorMoveLeft).1 h
    case Right => exact core _ (executeC_quit_flag e Command.CursorMoveRight).1 h
    case PageUp => exact core _ (executeC_quit_flag e Command.DocumentPageUp).1 h
    case PageDown => exact core _ (executeC_quit_flag e Command.DocumentPageDown).1 h
    case Home => exact core _ (executeC_quit_flag e Command.CursorMoveStart).1 h
    case End => exact core _ (executeC_quit_flag e Command.CursorMoveEnd).1 h
    all_goals exact core e rfl h

/-- A concrete editor with a pending quit warning (countdown already
lowered to 2). -/
def e9 : Editor := { e0 with quit_times := 2 }

theorem process_keypress_resets_quit_countdown_witness :
    ((process_keypress find0 true Key.Up [] e9).getD e9).quit_times = QUIT_TIMES ∧
    (e9.quit_times < QUIT_TIMES →
      ((process_keypress find0 true Key.Up [] e9).getD e9).status_text = "") :=
  process_keypress_resets_quit_countdown find0 true Key.Up [] e9
    ((process_keypress find0 true Key.Up [] e9).getD e9) (by decide) (by decide) (by decide)

/-- C10: while the mode is Command, `process_keypress` handles no key —
document, cursor position, quit flag and mode are all unchanged (only the
scroll/countdown-reset tail of the function runs); and no key ever switches
any mode to Command, since the source never issues
`EditorSwitchMode Command`. -/
theorem command_mode_inert (find : FindFn) (fsOk : Bool) (k : Key) (pks : List Key)
    (e : Editor) :
    (e.mode = EditorMode.Command →
      ∃ e', process_keypress find fsOk k pks e = some e' ∧ e'.document = e.document ∧
        e'.cursor_position = e.cursor_position ∧ e'.should_quit = e.should_quit ∧
        e'.mode = EditorMode.Command) ∧
    (e.mode ≠ EditorMode.Command →
      ∀ e', process_keypress find fsOk k pks e = some e' →
        e'.mode ≠ EditorMode.Command) := by
  constructor
  · intro hm
    refine ⟨afterKey e, process_keypress_command_eq find fsOk pks e hm k,
      (afterKey_fields e).1, (afterKey_fields e).2.1, (afterKey_fields e).2.2.1, ?_⟩
    rw [(afterKey_fields e).2.2.2]
    exact hm
  · intro hm e' h
    have notC : ∀ x : Editor, x.mode ≠ EditorMode.Command → some (afterKey x) = some e' →
        e'.mode ≠ EditorMode.Command := by
      intro x hx hsome
      injection hsome with hsome
      subst hsome
      rw [(afterKey_fields x).2.2.2]
      exact hx
    cases hmm : e.mode with
    | Command => exact absurd hmm hm
    | Normal =>
      rw [process_keypress_normal_eq find fsOk pks e hmm k] at h
      cases k
      case Char c =>
        have h2 : (if c = 'i' then
            some (afterKey (executeC e (Command.EditorSwitchMode EditorMode.Insert)))
            else some (afterKey e)) = some e' := h
        split_ifs at h2
        · refine notC _ ?_ h2
          rw [executeC_mode]
          exact fun hh => EditorMode.noConfusion hh
        · exact notC e hm h2
      all_goals exact notC e hm h
    | Insert =>
      rw [process_keypress_insert_eq find fsOk pks e hmm k] at h
      cases k
      case Esc =>
        refine notC _ ?_ h
        rw [executeC_mode]
        exact fun hh => EditorMode.noConfusion hh
      case Char c =>
        refine notC _ ?_ h
        rw [executeC_mode]
        exact hm
      case Ctrl c =>
        have h2 : (if c = 'q' then
            (if 0 < e.quit_times ∧ e.document.dirty = true then
              some { e with
                status_text := quitWarningText e.quit_times,
                quit_times := e.quit_times - 1 }
            else some (afterKey { e with should_quit := true }))
          else if c = 's' then (save fsOk pks e).map afterKey
          else if c = 'f' then (search find pks e).map afterKey
          else some (afterKey e)) = some e' := h
        by_cases hcq : c = 'q'
        · rw [if_pos hcq] at h2
          split_ifs at h2 with hdq
          · injection h2 with h2
            subst h2
            exact hm
          · exact notC { e with should_quit := true } hm h2
        · rw [if_neg hcq] at h2
          by_cases hcs : c = 's'
          · rw [if_pos hcs] at h2
            cases hsv : save fsOk pks e with
            | none => rw [hsv] at h2; simp at h2
            | some es =>
              rw [hsv] at h2
              refine notC es ?_ h2
              rw [(save_sameCore fsOk pks e es hsv).2.2]
              exact hm
          · rw [if_neg hcs] at h2
            by_cases hcf : c = 'f'
            · rw [if_pos hcf] at h2
              cases hse : search find pks e with
              | none => rw [hse] at h2; simp at h2
              | some es =>
                rw [hse] at h2
                refine notC es ?_ h2
                rw [(search_sameCore find pks e es hse).2.2]
                exact hm
            · rw [if_neg hcf] at h2
              exact notC e hm h2
      case Delete =>
        exact notC { e with document := e.document.delete e.cursor_position } hm h
      case Backspace =>
        have h2 : (if 0 < e.cursor_position.x ∨ 0 < e.cursor_position.y then
            some (afterKey
              { executeC e Command.CursorMoveLeft with
                document := (executeC e Command.CursorMoveLeft).document.delete
                  (executeC e Command.CursorMoveLeft).cursor_position })
            else some (afterKey e)) = some e' := h
        split_ifs at h2
        · refine notC
            { executeC e Command.CursorMoveLeft with
              document := (executeC e Command.CursorMoveLeft).document.delete
                (executeC e Command.CursorMoveLeft).cursor_position } ?_ h2
          show (executeC e Command.CursorMoveLeft).mode ≠ EditorMode.Command
          rw [executeC_mode]
          exact hm
        · exact notC e hm h2
      case Up => refine notC _ ?_ h; rw [executeC_mode]; exact hm
      case Down => refine notC _ ?_ h; rw [executeC_mode]; exact hm
      case Left => refine notC _ ?_ h; rw [executeC_mode]; exact hm
      case Right => refine notC _ ?_ h; rw [executeC_mode]; exact hm
      case PageUp => refine notC _ ?_ h; rw [executeC_mode]; exact hm
      case PageDown => refine notC _ ?_ h; rw [executeC_mode]; exact hm
      case Home => refine notC _ ?_ h; rw [executeC_mode]; exact hm
      case End => refine notC _ ?_ h; rw [executeC_mode]; exact hm
      all_goals exact notC e hm h

/-- A concrete editor in Command mode. -/
def e0c : Editor := { e0 with mode := EditorMode.Command }

theorem command_mode_inert_witness :
    ∃ e', process_keypress find0 true (Key.Char 'x') [] e0c = some e' ∧
      e'.document = e0c.document ∧ e'.cursor_position = e0c.cursor_position ∧
      e'.should_quit = e0c.should_quit ∧ e'.mode = EditorMode.Command :=
  (command_mode_inert find0 true (Key.Char 'x') [] e0c).1 rfl

/-- A concrete dirty editor in Normal mode with the countdown at its
initial value. -/
def e0n : Editor := { e0 with mode := EditorMode.Normal }

/-- C2 is false: Ctrl-Q triggers the quit protocol only in Insert mode.  In
Normal mode (dirty document, countdown at 3) the key falls into the
catch-all arm: afterwards the quit flag is still false and the countdown is
still 3 — neither a decrement-with-warning nor a termination happened. -/
theorem ctrl_q_normal_mode_ignored :
    (process_keypress find0 true (Key.Ctrl 'q') [] e0n).map
        (fun e => (e.should_quit, e.quit_times)) = some (false, 3) := by
  decide

/-- C2 (amended): a Ctrl-Q key press processed by `process_keypress`
triggers the quit protocol only in Insert mode — there it either terminates
the loop or decrements the countdown and shows the warning; in Normal and
Command mode the key is ignored: the quit flag is unchanged and the
countdown is never decremented. -/
theorem ctrl_q_insert_mode_only (find : FindFn) (fsOk : Bool) (pks : List Key) (e : Editor) :
    (e.mode = EditorMode.Insert →
      ∃ e', process_keypress find fsOk (Key.Ctrl 'q') pks e = some e' ∧
        (e'.should_quit = true ∨
         (e'.should_quit = e.should_quit ∧ e'.quit_times + 1 = e.quit_times ∧
          e'.status_text = quitWarningText e.quit_times))) ∧
    (e.mode ≠ EditorMode.Insert →
      ∃ e', process_keypress find fsOk (Key.Ctrl 'q') pks e = some e' ∧
        e'.should_quit = e.should_quit ∧ e.quit_times ≤ e'.quit_times) := by
  constructor
  · intro hm
    have hstep := process_keypress_ctrlq_eq find fsOk pks e hm
    by_cases hdq : 0 < e.quit_times ∧ e.document.dirty = true
    · rw [if_pos hdq] at hstep
      refine ⟨_, hstep, Or.inr ⟨rfl, ?_, rfl⟩⟩
      show e.quit_times - 1 + 1 = e.quit_times
      have := hdq.1
      omega
    · rw [if_neg hdq] at hstep
      exact ⟨_, hstep, Or.inl ((afterKey_fields _).2.2.1.trans rfl)⟩
  · intro hm
    cases hmm : e.mode with
    | Insert => exact absurd hmm hm
    | Normal =>
      exact ⟨afterKey e, process_keypress_normal_eq find fsOk pks e hmm (Key.Ctrl 'q'),
        (afterKey_fields e).2.2.1, afterKey_quit_le e⟩
    | Command =>
      exact ⟨afterKey e, process_keypress_command_eq find fsOk pks e hmm (Key.Ctrl 'q'),
        (afterKey_fields e).2.2.1, afterKey_quit_le e⟩

theorem ctrl_q_insert_mode_only_witness :
    ∃ e', process_keypress find0 true (Key.Ctrl 'q') [] e0 = some e' ∧
      (e'.should_quit = true ∨
       (e'.should_quit = e0.should_quit ∧ e'.quit_times + 1 = e0.quit_times ∧
        e'.status_text = quitWarningText e0.quit_times)) :=
  (ctrl_q_insert_mode_only find0 true [] e0).1 rfl

/-- The outcome of a quit-pending Ctrl-Q press: the early-return branch of
`process_keypress` (editor.rs lines 112-119) shows the warning with the
current countdown and decrements it. -/
def pressPending (e : Editor) : Editor :=
  { e with status_text := quitWarningText e.quit_times, quit_times := e.quit_times - 1 }

/-- C1 is false: with a dirty document and the countdown at its initial
value QUIT_TIMES = 3, three consecutive Ctrl-Q presses do NOT terminate the
edit loop — the third press merely lowers the countdown to 0 and
`should_quit` is still false; the fourth consecutive press terminates it. -/
theorem quit_three_presses_do_not_quit :
    (iterQ find0 true [] QUIT_TIMES e0).map Editor.should_quit = some false ∧
    (iterQ find0 true [] (QUIT_TIMES + 1) e0).map Editor.should_quit = some true := by
  decide

/-- C1 (amended): for a dirty document, each Ctrl-Q (in Insert mode) while
the countdown is positive decrements the countdown and shows the warning
without quitting; a Ctrl-Q with the countdown at 0, or with a clean
document, sets `should_quit`; hence starting from the initial countdown
QUIT_TIMES it takes exactly QUIT_TIMES + 1 consecutive Ctrl-Q presses to
terminate the loop: after any j ≤ QUIT_TIMES presses the loop still runs,
after QUIT_TIMES + 1 presses it is terminated. -/
theorem quit_protocol_n_plus_one (find : FindFn) (fsOk : Bool) (pks : List Key) :
    (∀ e : Editor, e.mode = EditorMode.Insert → e.document.dirty = true →
        0 < e.quit_times →
        process_keypress find fsOk (Key.Ctrl 'q') pks e =
          some { e with
            status_text := quitWarningText e.quit_times,
            quit_times := e.quit_times - 1 }) ∧
    (∀ e : Editor, e.mode = EditorMode.Insert →
        (e.document.dirty = false ∨ e.quit_times = 0) →
        ∃ e', process_keypress find fsOk (Key.Ctrl 'q') pks e = some e' ∧
          e'.should_quit = true) ∧
    (∀ e : Editor, e.mode = EditorMode.Insert → e.document.dirty = true →
        e.quit_times = QUIT_TIMES → e.should_quit = false →
        (∀ j : Nat, j ≤ QUIT_TIMES →
          ∃ ej, iterQ find fsOk pks j e = some ej ∧ ej.should_quit = false) ∧
        (∃ ef, iterQ find fsOk pks (QUIT_TIMES + 1) e = some ef ∧ ef.should_quit = true)) := by
  have ha : ∀ e : Editor, e.mode = EditorMode.Insert → e.document.dirty = true →
      0 < e.quit_times →
      process_keypress find fsOk (Key.Ctrl 'q') pks e = some (pressPending e) := by
    intro e hm hd hqt
    rw [process_keypress_ctrlq_eq find fsOk pks e hm, if_pos ⟨hqt, hd⟩]
    rfl
  have hb : ∀ e : Editor, e.mode = EditorMode.Insert →
      (e.document.dirty = false ∨ e.quit_times = 0) →
      ∃ e', process_keypress find fsOk (Key.Ctrl 'q') pks e = some e' ∧
        e'.should_quit = true := by
    intro e hm hdq
    have hng : ¬(0 < e.quit_times ∧ e.document.dirty = true) := by
      intro hc
      rcases hdq with hx | hx
      · rw [hx] at hc
        exact Bool.noConfusion hc.2
      · exact absurd hc.1 (by omega)
    rw [process_keypress_ctrlq_eq find fsOk pks e hm, if_neg hng]
    exact ⟨_, rfl, (afterKey_fields _).2.2.1.trans rfl⟩
  refine ⟨ha, hb, ?_⟩
  intro e hm hd hq hs
  have hq3 : e.quit_times = 3 := hq.trans rfl
  have h1 : process_keypress find fsOk (Key.Ctrl 'q') pks e = some (pressPending e) :=
    ha e hm hd (by omega)
  have h2 : process_keypress find fsOk (Key.Ctrl 'q') pks (pressPending e) =
      some (pressPending (pressPending e)) :=
    ha (pressPending e) hm hd (by show 0 < e.quit_times - 1; omega)
  have h3 : process_keypress find fsOk (Key.Ctrl 'q') pks (pressPending (pressPending e)) =
      some (pressPending (pressPending (pressPending e))) :=
    ha (pressPending (pressPending e)) hm hd (by show 0 < e.quit_times - 1 - 1; omega)
  obtain ⟨ef, hef, hefq⟩ :=
    hb (pressPending (pressPending (pressPending e))) hm
      (Or.inr (by show e.quit_times - 1 - 1 - 1 = 0; omega))
  have i1 : iterQ find fsOk pks 1 e = some (pressPending e) := by
    show (process_keypress find fsOk (Key.Ctrl 'q') pks e).bind (iterQ find fsOk pks 0) =
      some (pressPending e)
    rw [h1]
    rfl
  have i2 : iterQ find fsOk pks 2 e = some (pressPending (pressPending e)) := by
    show (process_keypress find fsOk (Key.Ctrl 'q') pks e).bind (iterQ find fsOk pks 1) =
      some (pressPending (pressPending e))
    rw [h1]
    show iterQ find fsOk pks 1 (pressPending e) = some (pressPending (pressPending e))
    show (process_keypress find fsOk (Key.Ctrl 'q') pks (pressPending e)).bind
      (iterQ find fsOk pks 0) = some (pressPending (pressPending e))
    rw [h2]
    rfl
  have i3 : iterQ find fsOk pks 3 e =
      some (pressPending (pressPending (pressPending e))) := by
    show (process_keypress find fsOk (Key.Ctrl 'q') pks e).bind (iterQ find fsOk pks 2) =
      some (pressPending (pressPending (pressPending e)))
    rw [h1]
    show (process_keypress find fsOk (Key.Ctrl 'q') pks (pressPending e)).bind
      (iterQ find fsOk pks 1) = some (pressPending (pressPending (pressPending e)))
    rw [h2]
    show (process_keypress find fsOk (Key.Ctrl 'q') pks (pressPending (pressPending e))).bind
      (iterQ find fsOk pks 0) = some (pressPending (pressPending (pressPending e)))
    rw [h3]
    rfl
  constructor
  · intro j hj
    have hj3 : j ≤ 3 := hj
    interval_cases j
    · exact ⟨e, rfl, hs⟩
    · exact ⟨pressPending e, i1, hs⟩
    · exact ⟨pressPending (pressPending e), i2, hs⟩
    · exact ⟨pressPending (pressPending (pressPending e)), i3, hs⟩
  · refine ⟨ef, ?_, hefq⟩
    show (process_keypress find fsOk (Key.Ctrl 'q') pks e).bind (iterQ find fsOk pks 3) =
      some ef
    rw [h1]
    show (process_keypress find fsOk (Key.Ctrl 'q') pks (pressPending e)).bind
      (iterQ find fsOk pks 2) = some ef
    rw [h2]
    show (process_keypress find fsOk (Key.Ctrl 'q') pks (pressPending (pressPending e))).bind
      (iterQ find fsOk pks 1) = some ef
    rw [h3]
    show (process_keypress find fsOk (Key.Ctrl 'q') pks
      (pressPending (pressPending (pressPending e)))).bind (iterQ find fsOk pks 0) = some ef
    rw [hef]
    rfl

theorem quit_protocol_n_plus_one_witness :
    ∃ ef, iterQ find0 true [] (QUIT_TIMES + 1) e0 = some ef ∧ ef.should_quit = true :=
  ((quit_protocol_n_plus_one find0 true []).2.2 e0 rfl rfl rfl rfl).2
